import Mathlib

/-!
Verification of the image-labeler repository's core logic.

The repository contains two implementations of the same logic:
a refactored core (`src/core/image_manager.py`, `src/core/label_manager.py`,
`src/core/zoom_manager.py`) and a monolithic application (`src/main.py`).
Both are embedded here.  Python floats are modelled as rationals (ℚ);
Python `int()` truncation is modelled by `pyInt`; the Tk/PIL rendering
calls are pure UI plumbing and carry no state relevant to the claims,
so they are omitted from the embedding.
-/

/-- Truncation toward zero, the semantics of Python `int()` on a float. -/
def pyInt (q : ℚ) : ℤ :=
  if q < 0 then -(Int.floor (-q)) else Int.floor q

/-- Constants from `src/utils/constants.py` (duplicated as literals in
`src/main.py` lines 96-101). -/
def MIN_ZOOM : ℚ := 1/10

def MAX_ZOOM_MOUSE : ℚ := 2

def MAX_ZOOM_KEYBOARD : ℚ := 2

def ZOOM_COOLDOWN : ℚ := 50

def ZOOM_INCREMENT_KEYBOARD : ℚ := 11/10

def ZOOM_INCREMENT_MOUSE : ℚ := 21/20

def CANVAS_MARGIN : ℚ := 9/10

def MIN_BOX_SIZE : ℚ := 5

/-- A decoded PIL image: only its pixel dimensions matter to the core. -/
structure PILImage where
  width : ℕ
  height : ℕ
deriving DecidableEq, Repr

/-- State of `ImageManager` (`src/core/image_manager.py`): the loaded
image (if any), the scale factor and the canvas position of the image's
top-left corner.  `image_tk` and `image_canvas_id` are rendering handles
with no effect on coordinate math and are omitted. -/
structure ImageManager where
  original_image : Option PILImage
  scale_factor : ℚ
  image_x : ℚ
  image_y : ℚ
deriving DecidableEq, Repr

namespace ImageManager

/-- `ImageManager.__init__`. -/
def init : ImageManager :=
  { original_image := none, scale_factor := 1, image_x := 0, image_y := 0 }

/-- `ImageManager.get_image_size`. -/
def get_image_size (m : ImageManager) : Option (ℕ × ℕ) :=
  match m.original_image with
  | some img => some (img.width, img.height)
  | none => none

/-- `ImageManager.get_scaled_size`: `int(width * scale), int(height * scale)`. -/
def get_scaled_size (m : ImageManager) : Option (ℤ × ℤ) :=
  match m.original_image with
  | some img =>
      some (pyInt ((img.width : ℚ) * m.scale_factor),
            pyInt ((img.height : ℚ) * m.scale_factor))
  | none => none

/-- `ImageManager.calculate_fit_scale` (lines 43-51): the raw geometric
fit scale times `CANVAS_MARGIN`; `1.0` when no image is loaded or the
canvas is not laid out yet.  Note: no clamping to the zoom limits. -/
def calculate_fit_scale (m : ImageManager) (canvas_width canvas_height : ℤ) : ℚ :=
  match m.original_image with
  | none => 1
  | some img =>
      if canvas_width ≤ 1 ∨ canvas_height ≤ 1 then 1
      else
        let scale_x : ℚ := (canvas_width : ℚ) / (img.width : ℚ)
        let scale_y : ℚ := (canvas_height : ℚ) / (img.height : ℚ)
        min scale_x scale_y * CANVAS_MARGIN

/-- `ImageManager.set_scale_and_center` (lines 53-72): stores the scale
unconditionally, then centers the image on each axis along which the
scaled image is smaller than the canvas. -/
def set_scale_and_center (m : ImageManager) (scale : ℚ)
    (canvas_width canvas_height : ℤ) : ImageManager :=
  let m1 : ImageManager := { m with scale_factor := scale }
  match m1.original_image with
  | none => m1
  | some img =>
      let scaled_width : ℤ := pyInt ((img.width : ℚ) * scale)
      let scaled_height : ℤ := pyInt ((img.height : ℚ) * scale)
      let ix : ℚ := if scaled_width < canvas_width
        then ((canvas_width - scaled_width : ℤ) : ℚ) / 2 else 0
      let iy : ℚ := if scaled_height < canvas_height
        then ((canvas_height - scaled_height : ℤ) : ℚ) / 2 else 0
      { m1 with image_x := ix, image_y := iy }

/-- `ImageManager.canvas_to_image_coords` (lines 117-127): identity when
no image is loaded, otherwise subtract the origin and divide by scale. -/
def canvas_to_image_coords (m : ImageManager) (canvas_x canvas_y : ℚ) : ℚ × ℚ :=
  match m.original_image with
  | none => (canvas_x, canvas_y)
  | some _ =>
      ((canvas_x - m.image_x) / m.scale_factor,
       (canvas_y - m.image_y) / m.scale_factor)

/-- `ImageManager.image_to_canvas_coords` (lines 129-133): multiply by
scale and add the origin, unconditionally. -/
def image_to_canvas_coords (m : ImageManager) (img_x img_y : ℚ) : ℚ × ℚ :=
  (img_x * m.scale_factor + m.image_x, img_y * m.scale_factor + m.image_y)

/-- `ImageManager.normalize_coordinates` (lines 135-150): chosen corners
to normalized YOLO `(x_center, y_center, width, height)`; all zero when
no image is loaded. -/
def normalize_coordinates (m : ImageManager) (x1 y1 x2 y2 : ℚ) :
    ℚ × ℚ × ℚ × ℚ :=
  match m.original_image with
  | none => (0, 0, 0, 0)
  | some img =>
      let x_center := (x1 + x2) / 2 / (img.width : ℚ)
      let y_center := (y1 + y2) / 2 / (img.height : ℚ)
      let width := |x2 - x1| / (img.width : ℚ)
      let height := |y2 - y1| / (img.height : ℚ)
      (x_center, y_center, width, height)

/-- `ImageManager.denormalize_coordinates` (lines 152-167): normalized
YOLO box back to image-space corners; all zero when no image is loaded. -/
def denormalize_coordinates (m : ImageManager)
    (x_center y_center width height : ℚ) : ℚ × ℚ × ℚ × ℚ :=
  match m.original_image with
  | none => (0, 0, 0, 0)
  | some img =>
      let x1 := (x_center - width / 2) * (img.width : ℚ)
      let y1 := (y_center - height / 2) * (img.height : ℚ)
      let x2 := (x_center + width / 2) * (img.width : ℚ)
      let y2 := (y_center + height / 2) * (img.height : ℚ)
      (x1, y1, x2, y2)

end ImageManager

/-!
### Label persistence (`src/core/label_manager.py` and the
`load_boxes` / `save_labels` / `undo_box` / `clear_labels` /
`end_pan_or_draw` handlers of `src/main.py`)

Python numbers are modelled by `PyNum`, keeping the int/float
distinction that `str()` formatting observes.  A label file is modelled
at two levels matching how the code touches it: reading tokenizes each
line with `str.split` and runs `float()` on the tokens, so for loading a
file is an optional list of lines, each a list of tokens that either
parse to a rational or make `float()` raise; writing produces the file's
full text, so for saving the file is a `String`.  Path derivation
(`get_label_file_path`) is abstracted: the file argument always denotes
the label file at the path derived from the image's base filename.
-/

/-- A Python number: an `int` or a `float` (floats as rationals). -/
inductive PyNum where
  | pint (n : ℤ)
  | pfloat (q : ℚ)
deriving DecidableEq, Repr

/-- `DEFAULT_CLASS_ID = 0` from `src/utils/constants.py`, an `int`. -/
def DEFAULT_CLASS_ID : PyNum := PyNum.pint 0

/-- One stored box: `(class_id, x_center, y_center, width, height)`. -/
structure Box where
  class_id : PyNum
  x_center : ℚ
  y_center : ℚ
  width : ℚ
  height : ℚ
deriving DecidableEq, Repr

/-- A whitespace-separated token of a label-file line: either `float()`
parses it to a rational or it raises. -/
inductive Tok where
  | num (q : ℚ)
  | bad
deriving DecidableEq, Repr

/-- Python `float()` on one token. -/
def floatOfTok : Tok → Option ℚ
  | Tok.num q => some q
  | Tok.bad => none

/-- `class_id, x_center, y_center, width, height = map(float, parts)` on
a 5-token line: the box, or `none` when any token raises.  Loaded class
ids are floats. -/
def parseLine5 : List Tok → Option Box
  | [c, x, y, w, h] =>
      match floatOfTok c, floatOfTok x, floatOfTok y,
            floatOfTok w, floatOfTok h with
      | some c', some x', some y', some w', some h' =>
          some ⟨PyNum.pfloat c', x', y', w', h'⟩
      | _, _, _, _, _ => none
  | _ => none

/-- The `for line in f` loop of `load_labels` / `load_boxes`: lines with
other than 5 tokens are skipped; a parsed 5-token line is appended; a
5-token line on which `float()` raises aborts the loop, keeping the
boxes accumulated so far and reporting failure. -/
def loadLines : List (List Tok) → List Box → List Box × Bool
  | [], acc => (acc, true)
  | parts :: rest, acc =>
      if parts.length = 5 then
        match parseLine5 parts with
        | some b => loadLines rest (acc ++ [b])
        | none => (acc, false)
      else loadLines rest acc

/-- State of `LabelManager`. -/
structure LabelManager where
  labels_dir : String
  boxes : List Box
deriving DecidableEq, Repr

namespace LabelManager

/-- `LabelManager.clear_boxes`. -/
def clear_boxes (m : LabelManager) : LabelManager := { m with boxes := [] }

/-- `LabelManager.add_box`: appends; the caller-supplied class id
defaults to the `int` `DEFAULT_CLASS_ID`. -/
def add_box (m : LabelManager) (x_center y_center width height : ℚ)
    (class_id : PyNum := DEFAULT_CLASS_ID) : LabelManager :=
  { m with boxes := m.boxes ++ [⟨class_id, x_center, y_center, width, height⟩] }

/-- `LabelManager.remove_last_box`. -/
def remove_last_box (m : LabelManager) : LabelManager × Bool :=
  if m.boxes = [] then (m, false)
  else ({ m with boxes := m.boxes.dropLast }, true)

/-- `LabelManager.load_labels` (lines 44-66): clears first,
unconditionally; empty path or missing file yield an empty list and
`False`; otherwise the line loop runs. -/
def load_labels (m : LabelManager) (image_path : String)
    (file : Option (List (List Tok))) : LabelManager × Bool :=
  let m1 := m.clear_boxes
  if image_path = "" then (m1, false)
  else
    match file with
    | none => (m1, false)
    | some lines =>
        let r := loadLines lines []
        ({ m1 with boxes := r.1 }, r.2)

end LabelManager

/-- Left-pad a digit string with zeros to width `k`. -/
def padZeros (s : String) (k : ℕ) : String :=
  String.mk (List.replicate (k - s.length) '0') ++ s

/-- Round to the nearest integer, halves up: `⌊q + 1/2⌋` computed
directly on the rational's numerator and denominator. -/
def ratRound (q : ℚ) : ℤ :=
  let r := q + 1/2
  r.num.ediv (r.den : ℤ)

/-- Renders `n` millionths as a signed fixed-point decimal with six
places. -/
def format6Core (n : ℤ) : String :=
  let sign := if n < 0 then "-" else ""
  let a := n.natAbs
  sign ++ toString (a / 1000000) ++ "." ++ padZeros (toString (a % 1000000)) 6

/-- Python `f"{q:.6f}"` (`COORDINATE_PRECISION = 6`): fixed six decimal
places, rounding to the nearest multiple of 10⁻⁶ (tie behavior differs
from binary-float round-half-even only on exact ties, which no value in
this development hits). -/
def format6 (q : ℚ) : String :=
  format6Core (ratRound (q * 1000000))

/-- Python `str()` of a float value: integral floats print with a
trailing `.0`; other values print their shortest finite decimal
expansion (exact for every decimal value occurring here; values with no
short decimal expansion are approximated at 17 digits). -/
def pyFloatStr (q : ℚ) : String :=
  if q.den = 1 then toString q.num ++ ".0"
  else
    let k := (((List.range 18).find? fun j => (q * (10 : ℚ) ^ j).den = 1).getD 17)
    let n : ℤ := ratRound (q * (10 : ℚ) ^ k)
    let sign := if n < 0 then "-" else ""
    let a := n.natAbs
    sign ++ toString (a / 10 ^ k) ++ "." ++ padZeros (toString (a % 10 ^ k)) k

/-- Python `str()` / f-string interpolation of a stored class id. -/
def pyNumStr : PyNum → String
  | PyNum.pint n => toString n
  | PyNum.pfloat q => pyFloatStr q

/-- One line written by `save_labels` (identical f-string in
`LabelManager.save_labels` and `ImageLabeler.save_labels`):
`f"{class_id} {xc:.6f} {yc:.6f} {w:.6f} {h:.6f}\n"`. -/
def boxLine (b : Box) : String :=
  pyNumStr b.class_id ++ " " ++ format6 b.x_center ++ " " ++
    format6 b.y_center ++ " " ++ format6 b.width ++ " " ++
    format6 b.height ++ "\n"

/-- The full text written on save: one line per box, in order. -/
def serializeBoxes (boxes : List Box) : String :=
  String.join (boxes.map boxLine)

/-- The line format the spec prescribes:
`"<class_id> <xc> <yc> <w> <h>"` with the class id formatted as an
integer and six decimal places on each coordinate. -/
def specLabelLine (class_id : ℤ) (xc yc w h : ℚ) : String :=
  toString class_id ++ " " ++ format6 xc ++ " " ++ format6 yc ++ " " ++
    format6 w ++ " " ++ format6 h ++ "\n"

/-- `LabelManager.save_labels` (lines 68-85): empty path is rejected
without touching the file; otherwise `open(path, "w")` truncates and the
full serialization is written — the previous content never survives. -/
def LabelManager.save_labels (m : LabelManager) (image_path : String)
    (old_file : Option String) : Option String × Bool :=
  if image_path = "" then (old_file, false)
  else (some (serializeBoxes m.boxes), true)

/-- Half-sum minus half absolute difference is the minimum. -/
theorem half_sub_abs_eq_min (a b : ℚ) : (a + b) / 2 - |b - a| / 2 = min a b := by
  rcases le_total a b with h | h
  · rw [abs_of_nonneg (by linarith), min_eq_left h]; ring
  · rw [abs_of_nonpos (by linarith), min_eq_right h]; ring

/-- Half-sum plus half absolute difference is the maximum. -/
theorem half_add_abs_eq_max (a b : ℚ) : (a + b) / 2 + |b - a| / 2 = max a b := by
  rcases le_total a b with h | h
  · rw [abs_of_nonneg (by linarith), max_eq_right h]; ring
  · rw [abs_of_nonpos (by linarith), max_eq_left h]; ring

/-- C1: round-trip of `normalize_coordinates` and `denormalize_coordinates`
recovers the axis-aligned rectangle with min/max corners, exactly over ℚ,
whenever an image with positive dimensions is loaded. -/
theorem normalize_denormalize_roundtrip (m : ImageManager) (img : PILImage)
    (him : m.original_image = some img)
    (hw : 0 < img.width) (hh : 0 < img.height) (x1 y1 x2 y2 : ℚ) :
    m.denormalize_coordinates
      (m.normalize_coordinates x1 y1 x2 y2).1
      (m.normalize_coordinates x1 y1 x2 y2).2.1
      (m.normalize_coordinates x1 y1 x2 y2).2.2.1
      (m.normalize_coordinates x1 y1 x2 y2).2.2.2 =
      (min x1 x2, min y1 y2, max x1 x2, max y1 y2) := by
  have hw' : ((img.width : ℚ)) ≠ 0 := (Nat.cast_pos.mpr hw).ne'
  have hh' : ((img.height : ℚ)) ≠ 0 := (Nat.cast_pos.mpr hh).ne'
  simp only [ImageManager.normalize_coordinates, ImageManager.denormalize_coordinates, him]
  refine Prod.ext ?_ (Prod.ext ?_ (Prod.ext ?_ ?_))
  · show ((x1 + x2) / 2 / (img.width : ℚ) - |x2 - x1| / (img.width : ℚ) / 2) *
        (img.width : ℚ) = min x1 x2
    calc ((x1 + x2) / 2 / (img.width : ℚ) - |x2 - x1| / (img.width : ℚ) / 2) *
          (img.width : ℚ) = (x1 + x2) / 2 - |x2 - x1| / 2 := by
            field_simp; ring
      _ = min x1 x2 := half_sub_abs_eq_min x1 x2
  · show ((y1 + y2) / 2 / (img.height : ℚ) - |y2 - y1| / (img.height : ℚ) / 2) *
        (img.height : ℚ) = min y1 y2
    calc ((y1 + y2) / 2 / (img.height : ℚ) - |y2 - y1| / (img.height : ℚ) / 2) *
          (img.height : ℚ) = (y1 + y2) / 2 - |y2 - y1| / 2 := by
            field_simp; ring
      _ = min y1 y2 := half_sub_abs_eq_min y1 y2
  · show ((x1 + x2) / 2 / (img.width : ℚ) + |x2 - x1| / (img.width : ℚ) / 2) *
        (img.width : ℚ) = max x1 x2
    calc ((x1 + x2) / 2 / (img.width : ℚ) + |x2 - x1| / (img.width : ℚ) / 2) *
          (img.width : ℚ) = (x1 + x2) / 2 + |x2 - x1| / 2 := by
            field_simp; ring
      _ = max x1 x2 := half_add_abs_eq_max x1 x2
  · show ((y1 + y2) / 2 / (img.height : ℚ) + |y2 - y1| / (img.height : ℚ) / 2) *
        (img.height : ℚ) = max y1 y2
    calc ((y1 + y2) / 2 / (img.height : ℚ) + |y2 - y1| / (img.height : ℚ) / 2) *
          (img.height : ℚ) = (y1 + y2) / 2 + |y2 - y1| / 2 := by
            field_simp; ring
      _ = max y1 y2 := half_add_abs_eq_max y1 y2

/-!
### ZoomManager (`src/core/zoom_manager.py`)

State of the refactored zoom/pan controller.  The `update_callback` is a
pure-UI redraw hook with no effect on controller state and is omitted.
Pan methods are not touched by any claim; the `time.time() * 1000` wall
clock read by `_can_zoom_with_debouncing` is passed in as the
`current_time` argument of the wheel-zoom operations.
-/

structure ZoomManager where
  im : ImageManager
  last_mouse_x : ℚ
  last_mouse_y : ℚ
  last_zoom_time : ℚ
  is_panning : Bool
  pan_start_x : Option ℚ
  pan_start_y : Option ℚ
  drawing_box : Bool
deriving DecidableEq, Repr

namespace ZoomManager

/-- `ZoomManager.set_drawing_mode`. -/
def set_drawing_mode (z : ZoomManager) (drawing : Bool) : ZoomManager :=
  { z with drawing_box := drawing }

/-- `ZoomManager.update_mouse_position`. -/
def update_mouse_position (z : ZoomManager) (x y : ℚ) : ZoomManager :=
  { z with last_mouse_x := x, last_mouse_y := y }

/-- `ZoomManager.can_zoom_in_keyboard`. -/
def can_zoom_in_keyboard (z : ZoomManager) : Prop :=
  z.im.scale_factor * ZOOM_INCREMENT_KEYBOARD ≤ MAX_ZOOM_KEYBOARD

instance (z : ZoomManager) : Decidable z.can_zoom_in_keyboard :=
  inferInstanceAs (Decidable (_ ≤ _))

/-- `ZoomManager.can_zoom_out` — note it tests division by the *keyboard*
increment even though the mouse path divides by the mouse increment. -/
def can_zoom_out (z : ZoomManager) : Prop :=
  z.im.scale_factor / ZOOM_INCREMENT_KEYBOARD ≥ MIN_ZOOM

instance (z : ZoomManager) : Decidable z.can_zoom_out :=
  inferInstanceAs (Decidable (_ ≥ _))

/-- `ZoomManager.can_zoom_in_mouse`. -/
def can_zoom_in_mouse (z : ZoomManager) : Prop :=
  z.im.scale_factor * ZOOM_INCREMENT_MOUSE ≤ MAX_ZOOM_MOUSE

instance (z : ZoomManager) : Decidable z.can_zoom_in_mouse :=
  inferInstanceAs (Decidable (_ ≤ _))

/-- `ZoomManager._zoom_to_scale` (lines 95-117): applies the new scale;
when centering on the mouse, first converts the last mouse position to
image coordinates under the old scale, then repositions the origin so the
same image point is back under the mouse.  Always returns `True`. -/
def zoomApply (z : ZoomManager) (new_scale : ℚ) (center_on_mouse : Bool) :
    Bool × ZoomManager :=
  if center_on_mouse then
    let p := z.im.canvas_to_image_coords z.last_mouse_x z.last_mouse_y
    let im1 : ImageManager := { z.im with scale_factor := new_scale }
    let q := im1.image_to_canvas_coords p.1 p.2
    let im2 : ImageManager := { im1 with
      image_x := z.last_mouse_x - (q.1 - im1.image_x),
      image_y := z.last_mouse_y - (q.2 - im1.image_y) }
    (true, { z with im := im2 })
  else
    (true, { z with im := { z.im with scale_factor := new_scale } })

/-- `ZoomManager._can_zoom_with_debouncing` (lines 119-125): passing the
cooldown test *mutates* `last_zoom_time` to the current time. -/
def canZoomWithDebouncing (z : ZoomManager) (current_time : ℚ) :
    Bool × ZoomManager :=
  if current_time - z.last_zoom_time ≥ ZOOM_COOLDOWN then
    (true, { z with last_zoom_time := current_time })
  else
    (false, z)

/-- `ZoomManager.zoom_in_keyboard`. -/
def zoom_in_keyboard (z : ZoomManager) : Bool × ZoomManager :=
  if ¬ z.can_zoom_in_keyboard ∨ z.drawing_box = true then (false, z)
  else z.zoomApply (z.im.scale_factor * ZOOM_INCREMENT_KEYBOARD) false

/-- `ZoomManager.zoom_out_keyboard`. -/
def zoom_out_keyboard (z : ZoomManager) : Bool × ZoomManager :=
  if ¬ z.can_zoom_out ∨ z.drawing_box = true then (false, z)
  else z.zoomApply (z.im.scale_factor / ZOOM_INCREMENT_KEYBOARD) false

/-- `ZoomManager.zoom_in_mouse` (lines 70-76): the debounce check runs
first (Python left-to-right short-circuit), so its `last_zoom_time`
update happens even when the zoom is then rejected by the limit test or
an active draw-session. -/
def zoom_in_mouse (z : ZoomManager) (current_time : ℚ) : Bool × ZoomManager :=
  let p := z.canZoomWithDebouncing current_time
  if p.1 = false ∨ ¬ p.2.can_zoom_in_mouse ∨ p.2.drawing_box = true then
    (false, p.2)
  else
    p.2.zoomApply (p.2.im.scale_factor * ZOOM_INCREMENT_MOUSE) true

/-- `ZoomManager.zoom_out_mouse` (lines 78-84). -/
def zoom_out_mouse (z : ZoomManager) (current_time : ℚ) : Bool × ZoomManager :=
  let p := z.canZoomWithDebouncing current_time
  if p.1 = false ∨ ¬ p.2.can_zoom_out ∨ p.2.drawing_box = true then
    (false, p.2)
  else
    p.2.zoomApply (p.2.im.scale_factor / ZOOM_INCREMENT_MOUSE) true

/-- `ZoomManager.zoom_to_scale` (lines 86-93): rejected while drawing,
otherwise clamps to `[MIN_ZOOM, MAX_ZOOM_KEYBOARD]` and applies. -/
def zoom_to_scale (z : ZoomManager) (scale : ℚ) (center_on_mouse : Bool) :
    Bool × ZoomManager :=
  if z.drawing_box = true then (false, z)
  else z.zoomApply (max MIN_ZOOM (min MAX_ZOOM_KEYBOARD scale)) center_on_mouse

end ZoomManager

/-!
### Monolithic application view state (`src/main.py`)

`ImageLabeler` duplicates the zoom/pan logic with inline literals.  The
fields below are the view-relevant attributes set in `__init__`; canvas
widgets, scrollbars and Tk ids are rendering plumbing and omitted.
-/

structure MainView where
  original_image : Option PILImage
  scale_factor : ℚ
  image_x : ℚ
  image_y : ℚ
  last_mouse_x : ℚ
  last_mouse_y : ℚ
  last_zoom_time : ℚ
  drawing_box : Bool
deriving DecidableEq, Repr

namespace MainView

/-- `ImageLabeler.zoom_to_scale` (lines 394-434): no-op while drawing;
when centering, the focal point is the last mouse position clamped to
the canvas (falling back to the canvas center when it is negative). -/
def zoom_to_scale (st : MainView) (new_scale : ℚ) (center_on_mouse : Bool)
    (canvas_width canvas_height : ℚ) : MainView :=
  if st.drawing_box = true then st
  else if center_on_mouse then
    let mouse_x := if st.last_mouse_x ≥ 0 ∧ st.last_mouse_y ≥ 0
      then max 0 (min st.last_mouse_x canvas_width) else canvas_width / 2
    let mouse_y := if st.last_mouse_x ≥ 0 ∧ st.last_mouse_y ≥ 0
      then max 0 (min st.last_mouse_y canvas_height) else canvas_height / 2
    let img_x := (mouse_x - st.image_x) / st.scale_factor
    let img_y := (mouse_y - st.image_y) / st.scale_factor
    { st with
      scale_factor := new_scale,
      image_x := mouse_x - img_x * new_scale,
      image_y := mouse_y - img_y * new_scale }
  else
    { st with scale_factor := new_scale }

/-- `ImageLabeler.zoom_in` (lines 354-358). -/
def zoom_in (st : MainView) (cw ch : ℚ) : MainView :=
  let new_scale := st.scale_factor * (11/10)
  if new_scale ≤ MAX_ZOOM_KEYBOARD then st.zoom_to_scale new_scale false cw ch
  else st

/-- `ImageLabeler.zoom_out` (lines 360-364): multiplies by the literal
`0.909090909`, not exactly `1/1.1`. -/
def zoom_out (st : MainView) (cw ch : ℚ) : MainView :=
  let new_scale := st.scale_factor * (909090909/1000000000)
  if new_scale ≥ MIN_ZOOM then st.zoom_to_scale new_scale false cw ch
  else st

/-- `ImageLabeler.zoom_in_smooth` (lines 366-370). -/
def zoom_in_smooth (st : MainView) (cw ch : ℚ) : MainView :=
  let new_scale := st.scale_factor * (21/20)
  if new_scale ≤ MAX_ZOOM_MOUSE then st.zoom_to_scale new_scale true cw ch
  else st

/-- `ImageLabeler.zoom_out_smooth` (lines 372-376): literal `0.952380952`. -/
def zoom_out_smooth (st : MainView) (cw ch : ℚ) : MainView :=
  let new_scale := st.scale_factor * (952380952/1000000000)
  if new_scale ≥ MIN_ZOOM then st.zoom_to_scale new_scale true cw ch
  else st

/-- `ImageLabeler.debounced_zoom_in` (lines 378-384). -/
def debounced_zoom_in (st : MainView) (current_time cw ch : ℚ) : MainView :=
  if current_time - st.last_zoom_time ≥ 50 then
    { st.zoom_in_smooth cw ch with last_zoom_time := current_time }
  else st

/-- `ImageLabeler.debounced_zoom_out` (lines 386-392). -/
def debounced_zoom_out (st : MainView) (current_time cw ch : ℚ) : MainView :=
  if current_time - st.last_zoom_time ≥ 50 then
    { st.zoom_out_smooth cw ch with last_zoom_time := current_time }
  else st

/-- `ImageLabeler.zoom_to_100` (lines 446-448). -/
def zoom_to_100 (st : MainView) (cw ch : ℚ) : MainView :=
  st.zoom_to_scale 1 false cw ch

/-- `ImageLabeler.zoom_to_200` (lines 450-452). -/
def zoom_to_200 (st : MainView) (cw ch : ℚ) : MainView :=
  st.zoom_to_scale 2 false cw ch

/-- `ImageLabeler.scale_image_to_fit` (lines 272-313): computes the raw
fit scale, clamps it into `[min_zoom, max_zoom_keyboard]` (line 298),
and centers the image.  No-op when no image is loaded, while drawing,
or before the canvas is laid out (the retry via `root.after` changes no
state now). -/
def scale_image_to_fit (st : MainView) (cw ch : ℤ) : MainView :=
  match st.original_image with
  | none => st
  | some img =>
      if st.drawing_box = true then st
      else if cw ≤ 1 ∨ ch ≤ 1 then st
      else
        let fit := min ((cw : ℚ) / (img.width : ℚ)) ((ch : ℚ) / (img.height : ℚ)) * (9/10)
        let s := max MIN_ZOOM (min MAX_ZOOM_KEYBOARD fit)
        let nw := pyInt ((img.width : ℚ) * s)
        let nh := pyInt ((img.height : ℚ) * s)
        { st with
          scale_factor := s,
          image_x := if nw < cw then ((cw - nw : ℤ) : ℚ) / 2 else 0,
          image_y := if nh < ch then ((ch - nh : ℤ) : ℚ) / 2 else 0 }

end MainView

/-- Concrete `ImageManager` holding a 1000×500 image at scale 1, origin 0. -/
def exampleManager : ImageManager :=
  { original_image := some ⟨1000, 500⟩, scale_factor := 1, image_x := 0, image_y := 0 }

/-- `zoomApply` always stores exactly the requested scale. -/
theorem zoomApply_scale (z : ZoomManager) (ns : ℚ) (c : Bool) :
    ((z.zoomApply ns c).2).im.scale_factor = ns := by
  unfold ZoomManager.zoomApply
  split <;> rfl

/-- The debounce check never touches the `ImageManager` view state. -/
theorem canZoomWithDebouncing_im (z : ZoomManager) (t : ℚ) :
    ((z.canZoomWithDebouncing t).2).im = z.im := by
  unfold ZoomManager.canZoomWithDebouncing
  split <;> rfl

/-- The debounce check never touches the drawing flag. -/
theorem canZoomWithDebouncing_drawing (z : ZoomManager) (t : ℚ) :
    ((z.canZoomWithDebouncing t).2).drawing_box = z.drawing_box := by
  unfold ZoomManager.canZoomWithDebouncing
  split <;> rfl

/-- Witness for C1 at the spec's example: a 1000×500 image and corners
(300,200),(100,100) drawn in reverse order. -/
theorem normalize_denormalize_roundtrip_witness :
    ImageManager.denormalize_coordinates exampleManager
      (ImageManager.normalize_coordinates exampleManager 300 200 100 100).1
      (ImageManager.normalize_coordinates exampleManager 300 200 100 100).2.1
      (ImageManager.normalize_coordinates exampleManager 300 200 100 100).2.2.1
      (ImageManager.normalize_coordinates exampleManager 300 200 100 100).2.2.2 =
      (100, 100, 300, 200) := by
  have h := normalize_denormalize_roundtrip exampleManager ⟨1000, 500⟩ rfl
    (by decide) (by decide) 300 200 100 100
  rw [h]; norm_num

/-- C2: mouse-centered zoom keeps the pixel under the focal point
stationary, in both implementations.  For the refactored core
(`ZoomManager._zoom_to_scale` with `center_on_mouse=True`): the image
point that was under the recorded mouse position maps back to that same
canvas position after the scale change.  For `ImageLabeler.zoom_to_scale`
in `src/main.py`, the same holds when the recorded mouse position lies
inside the canvas (so the clamping is the identity). -/
theorem zoom_focal_point_invariant (z : ZoomManager) (img : PILImage) (s : ℚ)
    (st : MainView) (cw ch : ℚ)
    (him : z.im.original_image = some img)
    (hz0 : 0 < z.im.scale_factor) (hs0 : 0 < s)
    (hd : st.drawing_box = false) (hst0 : 0 < st.scale_factor)
    (hx0 : 0 ≤ st.last_mouse_x) (hxc : st.last_mouse_x ≤ cw)
    (hy0 : 0 ≤ st.last_mouse_y) (hyc : st.last_mouse_y ≤ ch) :
    ((z.zoomApply s true).2).im.image_to_canvas_coords
        (z.im.canvas_to_image_coords z.last_mouse_x z.last_mouse_y).1
        (z.im.canvas_to_image_coords z.last_mouse_x z.last_mouse_y).2 =
      (z.last_mouse_x, z.last_mouse_y) ∧
    (((st.last_mouse_x - st.image_x) / st.scale_factor) *
          (st.zoom_to_scale s true cw ch).scale_factor +
        (st.zoom_to_scale s true cw ch).image_x = st.last_mouse_x ∧
      ((st.last_mouse_y - st.image_y) / st.scale_factor) *
          (st.zoom_to_scale s true cw ch).scale_factor +
        (st.zoom_to_scale s true cw ch).image_y = st.last_mouse_y) := by
  constructor
  · simp only [ZoomManager.zoomApply, ImageManager.image_to_canvas_coords,
      ImageManager.canvas_to_image_coords, him, eq_self_iff_true, if_true]
    refine Prod.ext ?_ ?_ <;> (simp only []; ring)
  · have hcond : st.last_mouse_x ≥ 0 ∧ st.last_mouse_y ≥ 0 := ⟨hx0, hy0⟩
    simp only [MainView.zoom_to_scale, hd, Bool.false_eq_true, if_false, if_true,
      if_pos hcond, min_eq_left hxc, max_eq_right hx0,
      min_eq_left hyc, max_eq_right hy0]
    constructor <;> ring

/-- Concrete `ZoomManager` at scale 1 with origin (10, 20), mouse at
(100, 50). -/
def zoomWitnessState : ZoomManager :=
  { im := { original_image := some ⟨1000, 500⟩, scale_factor := 1,
            image_x := 10, image_y := 20 },
    last_mouse_x := 100, last_mouse_y := 50, last_zoom_time := 0,
    is_panning := false, pan_start_x := none, pan_start_y := none,
    drawing_box := false }

/-- Concrete `MainView` matching `zoomWitnessState`. -/
def mainWitnessState : MainView :=
  { original_image := some ⟨1000, 500⟩, scale_factor := 1,
    image_x := 10, image_y := 20, last_mouse_x := 100, last_mouse_y := 50,
    last_zoom_time := 0, drawing_box := false }

/-- Witness for C2 at scale change 1 → 3/2 on an 800×600 canvas. -/
theorem zoom_focal_point_invariant_witness :
    ((zoomWitnessState.zoomApply (3/2) true).2).im.image_to_canvas_coords
        (zoomWitnessState.im.canvas_to_image_coords
          zoomWitnessState.last_mouse_x zoomWitnessState.last_mouse_y).1
        (zoomWitnessState.im.canvas_to_image_coords
          zoomWitnessState.last_mouse_x zoomWitnessState.last_mouse_y).2 =
      (zoomWitnessState.last_mouse_x, zoomWitnessState.last_mouse_y) ∧
    (((mainWitnessState.last_mouse_x - mainWitnessState.image_x) /
            mainWitnessState.scale_factor) *
          (mainWitnessState.zoom_to_scale (3/2) true 800 600).scale_factor +
        (mainWitnessState.zoom_to_scale (3/2) true 800 600).image_x =
        mainWitnessState.last_mouse_x ∧
      ((mainWitnessState.last_mouse_y - mainWitnessState.image_y) /
            mainWitnessState.scale_factor) *
          (mainWitnessState.zoom_to_scale (3/2) true 800 600).scale_factor +
        (mainWitnessState.zoom_to_scale (3/2) true 800 600).image_y =
        mainWitnessState.last_mouse_y) :=
  zoom_focal_point_invariant zoomWitnessState ⟨1000, 500⟩ (3/2)
    mainWitnessState 800 600 rfl (by norm_num [zoomWitnessState]) (by norm_num)
    rfl (by norm_num [mainWitnessState]) (by norm_num [mainWitnessState])
    (by norm_num [mainWitnessState]) (by norm_num [mainWitnessState])
    (by norm_num [mainWitnessState])

/-- The scale invariant claimed by the spec: within
`[MIN_ZOOM, MAX_ZOOM_KEYBOARD]` (both ceilings are 2.0). -/
def scaleInRange (q : ℚ) : Prop := MIN_ZOOM ≤ q ∧ q ≤ MAX_ZOOM_KEYBOARD

/-- Clamping into `[MIN_ZOOM, MAX_ZOOM_KEYBOARD]` always lands in range. -/
theorem clampInRange (s : ℚ) : scaleInRange (max MIN_ZOOM (min MAX_ZOOM_KEYBOARD s)) :=
  ⟨le_max_left _ _,
   max_le (by norm_num [MIN_ZOOM, MAX_ZOOM_KEYBOARD]) (min_le_left _ _)⟩

/-- The scale stored by `ImageLabeler.zoom_to_scale`: unchanged while
drawing, otherwise exactly the requested scale (no clamping here). -/
theorem main_zoom_to_scale_scale (st : MainView) (ns : ℚ) (c : Bool) (cw ch : ℚ) :
    (st.zoom_to_scale ns c cw ch).scale_factor =
      if st.drawing_box = true then st.scale_factor else ns := by
  unfold MainView.zoom_to_scale
  split
  · rfl
  · split <;> rfl

/-- A 10×10 image at default view state. -/
def tinyImageManager : ImageManager :=
  { original_image := some ⟨10, 10⟩, scale_factor := 1, image_x := 0, image_y := 0 }

/-- C4 counterexample: the refactored core's fit-to-canvas
(`ImageManager.calculate_fit_scale` fed to
`ImageManager.set_scale_and_center`) does not clamp: fitting a 10×10
image to a 1000×1000 canvas stores scale 90, far above
`MAX_ZOOM_KEYBOARD = 2`. -/
theorem fit_scale_escapes_bounds :
    tinyImageManager.calculate_fit_scale 1000 1000 = 90 ∧
    (tinyImageManager.set_scale_and_center
      (tinyImageManager.calculate_fit_scale 1000 1000) 1000 1000).scale_factor = 90 ∧
    ¬ scaleInRange 90 := by
  refine ⟨?_, ?_, ?_⟩
  · norm_num [ImageManager.calculate_fit_scale, tinyImageManager, CANVAS_MARGIN]
  · norm_num [ImageManager.calculate_fit_scale, ImageManager.set_scale_and_center,
      tinyImageManager, CANVAS_MARGIN]
  · norm_num [scaleInRange, MAX_ZOOM_KEYBOARD]

/-- C4 amended: every zoom operation of both implementations — keyboard
zoom, wheel zoom, zoom-to-scale, the 100%/200% buttons — and `main.py`'s
fit-to-canvas (which clamps, line 298) preserves
`scale ∈ [MIN_ZOOM, MAX_ZOOM_KEYBOARD]`; the refactored core's
`calculate_fit_scale` is the one scale source that escapes the range
(see `fit_scale_escapes_bounds`). -/
theorem zoom_ops_preserve_scale_bounds
    (z : ZoomManager) (st : MainView) (t s cw ch : ℚ) (c : Bool) (cwi chi : ℤ)
    (hz1 : MIN_ZOOM ≤ z.im.scale_factor) (hz2 : z.im.scale_factor ≤ MAX_ZOOM_KEYBOARD)
    (hs1 : MIN_ZOOM ≤ st.scale_factor) (hs2 : st.scale_factor ≤ MAX_ZOOM_KEYBOARD) :
    scaleInRange (z.zoom_in_keyboard.2.im.scale_factor) ∧
    scaleInRange (z.zoom_out_keyboard.2.im.scale_factor) ∧
    scaleInRange ((z.zoom_in_mouse t).2.im.scale_factor) ∧
    scaleInRange ((z.zoom_out_mouse t).2.im.scale_factor) ∧
    scaleInRange ((z.zoom_to_scale s c).2.im.scale_factor) ∧
    scaleInRange ((st.zoom_in cw ch).scale_factor) ∧
    scaleInRange ((st.zoom_out cw ch).scale_factor) ∧
    scaleInRange ((st.zoom_in_smooth cw ch).scale_factor) ∧
    scaleInRange ((st.zoom_out_smooth cw ch).scale_factor) ∧
    scaleInRange ((st.debounced_zoom_in t cw ch).scale_factor) ∧
    scaleInRange ((st.debounced_zoom_out t cw ch).scale_factor) ∧
    scaleInRange ((st.zoom_to_100 cw ch).scale_factor) ∧
    scaleInRange ((st.zoom_to_200 cw ch).scale_factor) ∧
    scaleInRange ((st.scale_image_to_fit cwi chi).scale_factor) := by
  have hz1n : (1/10 : ℚ) ≤ z.im.scale_factor := hz1
  have hz2n : z.im.scale_factor ≤ (2 : ℚ) := hz2
  have hs1n : (1/10 : ℚ) ≤ st.scale_factor := hs1
  have hs2n : st.scale_factor ≤ (2 : ℚ) := hs2
  have h1 : scaleInRange (z.zoom_in_keyboard.2.im.scale_factor) := by
    unfold ZoomManager.zoom_in_keyboard
    split
    · exact ⟨hz1, hz2⟩
    · rename_i h
      push_neg at h
      rw [zoomApply_scale]
      have hcan : z.im.scale_factor * (11/10) ≤ 2 := h.1
      refine ⟨?_, ?_⟩
      · show (1/10 : ℚ) ≤ z.im.scale_factor * (11/10); linarith
      · show z.im.scale_factor * (11/10) ≤ (2 : ℚ); linarith
  have h2 : scaleInRange (z.zoom_out_keyboard.2.im.scale_factor) := by
    unfold ZoomManager.zoom_out_keyboard
    split
    · exact ⟨hz1, hz2⟩
    · rename_i h
      push_neg at h
      rw [zoomApply_scale]
      have hcan : z.im.scale_factor / (11/10) ≥ 1/10 := h.1
      rw [ge_iff_le, le_div_iff₀ (by norm_num)] at hcan
      refine ⟨?_, ?_⟩
      · show (1/10 : ℚ) ≤ z.im.scale_factor / (11/10)
        rw [le_div_iff₀ (by norm_num)]; linarith
      · show z.im.scale_factor / (11/10) ≤ (2 : ℚ)
        rw [div_le_iff₀ (by norm_num)]; linarith
  have h3 : scaleInRange ((z.zoom_in_mouse t).2.im.scale_factor) := by
    simp only [ZoomManager.zoom_in_mouse]
    split
    · rw [canZoomWithDebouncing_im]; exact ⟨hz1, hz2⟩
    · rename_i h
      push_neg at h
      rw [zoomApply_scale]
      have hcan : (z.canZoomWithDebouncing t).2.im.scale_factor * (21/20) ≤ 2 := h.2.1
      rw [canZoomWithDebouncing_im] at hcan
      rw [canZoomWithDebouncing_im]
      refine ⟨?_, ?_⟩
      · show (1/10 : ℚ) ≤ z.im.scale_factor * (21/20); linarith
      · show z.im.scale_factor * (21/20) ≤ (2 : ℚ); linarith
  have h4 : scaleInRange ((z.zoom_out_mouse t).2.im.scale_factor) := by
    simp only [ZoomManager.zoom_out_mouse]
    split
    · rw [canZoomWithDebouncing_im]; exact ⟨hz1, hz2⟩
    · rename_i h
      push_neg at h
      rw [zoomApply_scale]
      have hcan : (z.canZoomWithDebouncing t).2.im.scale_factor / (11/10) ≥ 1/10 := h.2.1
      rw [canZoomWithDebouncing_im] at hcan
      rw [canZoomWithDebouncing_im]
      rw [ge_iff_le, le_div_iff₀ (by norm_num)] at hcan
      refine ⟨?_, ?_⟩
      · show (1/10 : ℚ) ≤ z.im.scale_factor / (21/20)
        rw [le_div_iff₀ (by norm_num)]; linarith
      · show z.im.scale_factor / (21/20) ≤ (2 : ℚ)
        rw [div_le_iff₀ (by norm_num)]; linarith
  have h5 : scaleInRange ((z.zoom_to_scale s c).2.im.scale_factor) := by
    unfold ZoomManager.zoom_to_scale
    split
    · exact ⟨hz1, hz2⟩
    · rw [zoomApply_scale]; exact clampInRange s
  have h6 : scaleInRange ((st.zoom_in cw ch).scale_factor) := by
    simp only [MainView.zoom_in]
    split
    · rename_i hg
      rw [main_zoom_to_scale_scale]
      split
      · exact ⟨hs1, hs2⟩
      · have hgn : st.scale_factor * (11/10) ≤ 2 := hg
        refine ⟨?_, ?_⟩
        · show (1/10 : ℚ) ≤ st.scale_factor * (11/10); linarith
        · show st.scale_factor * (11/10) ≤ (2 : ℚ); linarith
    · exact ⟨hs1, hs2⟩
  have h7 : scaleInRange ((st.zoom_out cw ch).scale_factor) := by
    simp only [MainView.zoom_out]
    split
    · rename_i hg
      rw [main_zoom_to_scale_scale]
      split
      · exact ⟨hs1, hs2⟩
      · have hgn : st.scale_factor * (909090909/1000000000) ≥ 1/10 := hg
        refine ⟨?_, ?_⟩
        · show (1/10 : ℚ) ≤ st.scale_factor * (909090909/1000000000); linarith
        · show st.scale_factor * (909090909/1000000000) ≤ (2 : ℚ); linarith
    · exact ⟨hs1, hs2⟩
  have h8 : scaleInRange ((st.zoom_in_smooth cw ch).scale_factor) := by
    simp only [MainView.zoom_in_smooth]
    split
    · rename_i hg
      rw [main_zoom_to_scale_scale]
      split
      · exact ⟨hs1, hs2⟩
      · have hgn : st.scale_factor * (21/20) ≤ 2 := hg
        refine ⟨?_, ?_⟩
        · show (1/10 : ℚ) ≤ st.scale_factor * (21/20); linarith
        · show st.scale_factor * (21/20) ≤ (2 : ℚ); linarith
    · exact ⟨hs1, hs2⟩
  have h9 : scaleInRange ((st.zoom_out_smooth cw ch).scale_factor) := by
    simp only [MainView.zoom_out_smooth]
    split
    · rename_i hg
      rw [main_zoom_to_scale_scale]
      split
      · exact ⟨hs1, hs2⟩
      · have hgn : st.scale_factor * (952380952/1000000000) ≥ 1/10 := hg
        refine ⟨?_, ?_⟩
        · show (1/10 : ℚ) ≤ st.scale_factor * (952380952/1000000000); linarith
        · show st.scale_factor * (952380952/1000000000) ≤ (2 : ℚ); linarith
    · exact ⟨hs1, hs2⟩
  have h10 : scaleInRange ((st.debounced_zoom_in t cw ch).scale_factor) := by
    unfold MainView.debounced_zoom_in
    split
    · exact h8
    · exact ⟨hs1, hs2⟩
  have h11 : scaleInRange ((st.debounced_zoom_out t cw ch).scale_factor) := by
    unfold MainView.debounced_zoom_out
    split
    · exact h9
    · exact ⟨hs1, hs2⟩
  have h12 : scaleInRange ((st.zoom_to_100 cw ch).scale_factor) := by
    unfold MainView.zoom_to_100
    rw [main_zoom_to_scale_scale]
    split
    · exact ⟨hs1, hs2⟩
    · exact ⟨by norm_num [MIN_ZOOM], by norm_num [MAX_ZOOM_KEYBOARD]⟩
  have h13 : scaleInRange ((st.zoom_to_200 cw ch).scale_factor) := by
    unfold MainView.zoom_to_200
    rw [main_zoom_to_scale_scale]
    split
    · exact ⟨hs1, hs2⟩
    · exact ⟨by norm_num [MIN_ZOOM], by norm_num [MAX_ZOOM_KEYBOARD]⟩
  have h14 : scaleInRange ((st.scale_image_to_fit cwi chi).scale_factor) := by
    unfold MainView.scale_image_to_fit
    rcases hoi : st.original_image with _ | img
    · exact ⟨hs1, hs2⟩
    · simp only []
      by_cases hd : st.drawing_box = true
      · rw [if_pos hd]; exact ⟨hs1, hs2⟩
      · rw [if_neg hd]
        by_cases hc : cwi ≤ 1 ∨ chi ≤ 1
        · rw [if_pos hc]; exact ⟨hs1, hs2⟩
        · rw [if_neg hc]
          exact clampInRange _
  exact ⟨h1, h2, h3, h4, h5, h6, h7, h8, h9, h10, h11, h12, h13, h14⟩

/-- Witness for C4 (amended) at concrete states: `main.py`'s
fit-to-canvas from the witness state lands in range. -/
theorem zoom_ops_preserve_scale_bounds_witness :
    scaleInRange ((mainWitnessState.scale_image_to_fit 800 600).scale_factor) :=
  (zoom_ops_preserve_scale_bounds zoomWitnessState mainWitnessState 100 (3/2)
    800 600 false 800 600 (by norm_num [zoomWitnessState, MIN_ZOOM])
    (by norm_num [zoomWitnessState, MAX_ZOOM_KEYBOARD])
    (by norm_num [mainWitnessState, MIN_ZOOM])
    (by norm_num [mainWitnessState, MAX_ZOOM_KEYBOARD])).2.2.2.2.2.2.2.2.2.2.2.2.2

/-- `zoomApply` always reports success. -/
theorem zoomApply_fst (z : ZoomManager) (ns : ℚ) (c : Bool) :
    (z.zoomApply ns c).1 = true := by
  unfold ZoomManager.zoomApply
  split <;> rfl

/-- A `ZoomManager` in an active draw-session, cooldown fully elapsed. -/
def drawingZoomState : ZoomManager :=
  { im := { original_image := some ⟨100, 100⟩, scale_factor := 1,
            image_x := 0, image_y := 0 },
    last_mouse_x := 0, last_mouse_y := 0, last_zoom_time := 0,
    is_panning := false, pan_start_x := none, pan_start_y := none,
    drawing_box := true }

/-- C6 counterexample: a wheel zoom-in arriving at time 100 (cooldown
elapsed) while a draw-session is active is rejected, yet
`last_zoom_time` is advanced from 0 to 100 — a rejected operation does
change observable state, and the cooldown timer is reset by an operation
that was not accepted. -/
theorem rejected_wheel_zoom_resets_cooldown :
    (drawingZoomState.zoom_in_mouse 100).1 = false ∧
    drawingZoomState.last_zoom_time = 0 ∧
    (drawingZoomState.zoom_in_mouse 100).2.last_zoom_time = 100 := by
  have hp : drawingZoomState.canZoomWithDebouncing 100 =
      (true, { drawingZoomState with last_zoom_time := 100 }) := by
    unfold ZoomManager.canZoomWithDebouncing
    rw [if_pos (by norm_num [drawingZoomState, ZOOM_COOLDOWN] :
      (100 : ℚ) - drawingZoomState.last_zoom_time ≥ ZOOM_COOLDOWN)]
  refine ⟨?_, rfl, ?_⟩ <;>
  · simp only [ZoomManager.zoom_in_mouse, hp]
    split
    · rfl
    · rename_i h
      exact absurd (Or.inr (Or.inr rfl)) h

/-- C6 amended: a wheel zoom rejected *by the cooldown itself* changes
nothing at all; any rejected wheel zoom leaves the view transform
(`ImageManager` state) unchanged; but when the cooldown test passes and
the zoom is then rejected by the zoom limit or an active draw-session,
the cooldown timer is still reset to the current time (the debounce
check runs first and mutates `last_zoom_time` on success). -/
theorem wheel_zoom_rejection_behavior (z : ZoomManager) (t : ℚ) :
    (t - z.last_zoom_time < ZOOM_COOLDOWN →
      z.zoom_in_mouse t = (false, z) ∧ z.zoom_out_mouse t = (false, z)) ∧
    ((z.zoom_in_mouse t).1 = false → (z.zoom_in_mouse t).2.im = z.im) ∧
    ((z.zoom_out_mouse t).1 = false → (z.zoom_out_mouse t).2.im = z.im) ∧
    (t - z.last_zoom_time ≥ ZOOM_COOLDOWN →
      (¬ z.can_zoom_in_mouse ∨ z.drawing_box = true) →
      (z.zoom_in_mouse t).1 = false ∧
      (z.zoom_in_mouse t).2.last_zoom_time = t) ∧
    (t - z.last_zoom_time ≥ ZOOM_COOLDOWN →
      (¬ z.can_zoom_out ∨ z.drawing_box = true) →
      (z.zoom_out_mouse t).1 = false ∧
      (z.zoom_out_mouse t).2.last_zoom_time = t) := by
  refine ⟨?_, ?_, ?_, ?_, ?_⟩
  · intro hlt
    have hcool : ¬ (t - z.last_zoom_time ≥ ZOOM_COOLDOWN) := not_le.mpr hlt
    have hp : z.canZoomWithDebouncing t = (false, z) := by
      unfold ZoomManager.canZoomWithDebouncing
      rw [if_neg hcool]
    constructor
    · simp only [ZoomManager.zoom_in_mouse, hp]
      split
      · rfl
      · rename_i h
        exact absurd (Or.inl trivial) h
    · simp only [ZoomManager.zoom_out_mouse, hp]
      split
      · rfl
      · rename_i h
        exact absurd (Or.inl trivial) h
  · intro hrej
    by_cases hc : (z.canZoomWithDebouncing t).1 = false ∨
        ¬ (z.canZoomWithDebouncing t).2.can_zoom_in_mouse ∨
        (z.canZoomWithDebouncing t).2.drawing_box = true
    · show ((z.zoom_in_mouse t).2).im = z.im
      simp only [ZoomManager.zoom_in_mouse]
      rw [if_pos hc]
      exact canZoomWithDebouncing_im z t
    · simp only [ZoomManager.zoom_in_mouse] at hrej
      rw [if_neg hc, zoomApply_fst] at hrej
      cases hrej
  · intro hrej
    by_cases hc : (z.canZoomWithDebouncing t).1 = false ∨
        ¬ (z.canZoomWithDebouncing t).2.can_zoom_out ∨
        (z.canZoomWithDebouncing t).2.drawing_box = true
    · show ((z.zoom_out_mouse t).2).im = z.im
      simp only [ZoomManager.zoom_out_mouse]
      rw [if_pos hc]
      exact canZoomWithDebouncing_im z t
    · simp only [ZoomManager.zoom_out_mouse] at hrej
      rw [if_neg hc, zoomApply_fst] at hrej
      cases hrej
  · intro hge hrej
    have hp : z.canZoomWithDebouncing t = (true, { z with last_zoom_time := t }) := by
      unfold ZoomManager.canZoomWithDebouncing
      rw [if_pos hge]
    simp only [ZoomManager.zoom_in_mouse, hp]
    split
    · exact ⟨rfl, rfl⟩
    · rename_i h
      refine absurd ?_ h
      rcases hrej with hr | hr
      · exact Or.inr (Or.inl hr)
      · exact Or.inr (Or.inr hr)
  · intro hge hrej
    have hp : z.canZoomWithDebouncing t = (true, { z with last_zoom_time := t }) := by
      unfold ZoomManager.canZoomWithDebouncing
      rw [if_pos hge]
    simp only [ZoomManager.zoom_out_mouse, hp]
    split
    · exact ⟨rfl, rfl⟩
    · rename_i h
      refine absurd ?_ h
      rcases hrej with hr | hr
      · exact Or.inr (Or.inl hr)
      · exact Or.inr (Or.inr hr)

/-- Witness for C6 (amended): at `drawingZoomState` and time 100, the
cooldown passes, the draw-session rejects the zoom, and the timer is
reset to 100. -/
theorem wheel_zoom_rejection_behavior_witness :
    (drawingZoomState.zoom_in_mouse 100).1 = false ∧
    (drawingZoomState.zoom_in_mouse 100).2.last_zoom_time = 100 :=
  (wheel_zoom_rejection_behavior drawingZoomState 100).2.2.2.1
    (by norm_num [drawingZoomState, ZOOM_COOLDOWN]) (Or.inr rfl)

/-- A `MainView` in an active draw-session. -/
def drawingMainView : MainView :=
  { original_image := some ⟨100, 100⟩, scale_factor := 1, image_x := 0,
    image_y := 0, last_mouse_x := 0, last_mouse_y := 0, last_zoom_time := 0,
    drawing_box := true }

/-- C8: while a draw-session is active, every zoom operation of both
implementations is rejected (returns `False` / leaves the state as-is)
and the view transform is unchanged; clearing the drawing flag restores
normal zoom behavior (keyboard zoom-in succeeds exactly when the limit
test allows it, and then multiplies the scale by the keyboard
increment). -/
theorem draw_session_blocks_zoom (z : ZoomManager) (t s ns cw ch : ℚ)
    (c : Bool) (st : MainView)
    (hz : z.drawing_box = true) (hst : st.drawing_box = true) :
    z.zoom_in_keyboard = (false, z) ∧
    z.zoom_out_keyboard = (false, z) ∧
    ((z.zoom_in_mouse t).1 = false ∧ (z.zoom_in_mouse t).2.im = z.im) ∧
    ((z.zoom_out_mouse t).1 = false ∧ (z.zoom_out_mouse t).2.im = z.im) ∧
    z.zoom_to_scale s c = (false, z) ∧
    st.zoom_to_scale ns c cw ch = st ∧
    ((z.set_drawing_mode false).zoom_in_keyboard.1 = true ↔
      (z.set_drawing_mode false).can_zoom_in_keyboard) ∧
    ((z.set_drawing_mode false).can_zoom_in_keyboard →
      (z.set_drawing_mode false).zoom_in_keyboard.2.im.scale_factor =
        z.im.scale_factor * ZOOM_INCREMENT_KEYBOARD) := by
  have hmouse_in : (z.zoom_in_mouse t).1 = false ∧ (z.zoom_in_mouse t).2.im = z.im := by
    have hcond : (z.canZoomWithDebouncing t).1 = false ∨
        ¬ (z.canZoomWithDebouncing t).2.can_zoom_in_mouse ∨
        (z.canZoomWithDebouncing t).2.drawing_box = true := by
      refine Or.inr (Or.inr ?_)
      rw [canZoomWithDebouncing_drawing]
      exact hz
    simp only [ZoomManager.zoom_in_mouse]
    rw [if_pos hcond]
    exact ⟨rfl, canZoomWithDebouncing_im z t⟩
  have hmouse_out : (z.zoom_out_mouse t).1 = false ∧ (z.zoom_out_mouse t).2.im = z.im := by
    have hcond : (z.canZoomWithDebouncing t).1 = false ∨
        ¬ (z.canZoomWithDebouncing t).2.can_zoom_out ∨
        (z.canZoomWithDebouncing t).2.drawing_box = true := by
      refine Or.inr (Or.inr ?_)
      rw [canZoomWithDebouncing_drawing]
      exact hz
    simp only [ZoomManager.zoom_out_mouse]
    rw [if_pos hcond]
    exact ⟨rfl, canZoomWithDebouncing_im z t⟩
  refine ⟨?_, ?_, hmouse_in, hmouse_out, ?_, ?_, ?_, ?_⟩
  · unfold ZoomManager.zoom_in_keyboard
    rw [if_pos (Or.inr hz)]
  · unfold ZoomManager.zoom_out_keyboard
    rw [if_pos (Or.inr hz)]
  · unfold ZoomManager.zoom_to_scale
    rw [if_pos hz]
  · unfold MainView.zoom_to_scale
    rw [if_pos hst]
  · by_cases hcan : (z.set_drawing_mode false).can_zoom_in_keyboard
    · unfold ZoomManager.zoom_in_keyboard
      rw [if_neg ?_]
      · rw [zoomApply_fst]
        exact ⟨fun _ => hcan, fun _ => rfl⟩
      · rintro (h | h)
        · exact h hcan
        · exact Bool.false_ne_true h
    · unfold ZoomManager.zoom_in_keyboard
      rw [if_pos (Or.inl hcan)]
      constructor
      · intro h; cases h
      · intro h; exact absurd h hcan
  · intro hcan
    unfold ZoomManager.zoom_in_keyboard
    rw [if_neg ?_]
    · rw [zoomApply_scale]; rfl
    · rintro (h | h)
      · exact h hcan
      · exact Bool.false_ne_true h

/-- Witness for C8 at a concrete drawing state. -/
theorem draw_session_blocks_zoom_witness :
    drawingZoomState.zoom_in_keyboard = (false, drawingZoomState) :=
  (draw_session_blocks_zoom drawingZoomState 100 (3/2) 1 800 600 false
    drawingMainView rfl rfl).1

/-- C10: `canvas_to_image_coords` is the identity when no image is
loaded; `image_to_canvas_coords` applies scale and origin
unconditionally; the round-trip
`image_to_canvas_coords ∘ canvas_to_image_coords` is the identity when
an image is loaded (nonzero scale) or when scale is 1 and the origin is
0 — and fails otherwise at some canvas point when no image is loaded. -/
theorem coord_roundtrip_conditional (m : ImageManager) (x y : ℚ) :
    (m.original_image = none → m.canvas_to_image_coords x y = (x, y)) ∧
    m.image_to_canvas_coords x y =
      (x * m.scale_factor + m.image_x, y * m.scale_factor + m.image_y) ∧
    (∀ img, m.original_image = some img → m.scale_factor ≠ 0 →
      m.image_to_canvas_coords (m.canvas_to_image_coords x y).1
        (m.canvas_to_image_coords x y).2 = (x, y)) ∧
    (m.scale_factor = 1 → m.image_x = 0 → m.image_y = 0 →
      m.image_to_canvas_coords (m.canvas_to_image_coords x y).1
        (m.canvas_to_image_coords x y).2 = (x, y)) ∧
    (m.original_image = none →
      ¬ (m.scale_factor = 1 ∧ m.image_x = 0 ∧ m.image_y = 0) →
      ∃ px py, m.image_to_canvas_coords (m.canvas_to_image_coords px py).1
        (m.canvas_to_image_coords px py).2 ≠ (px, py)) := by
  refine ⟨?_, rfl, ?_, ?_, ?_⟩
  · intro hnone
    simp [ImageManager.canvas_to_image_coords, hnone]
  · intro img him hs
    simp only [ImageManager.canvas_to_image_coords, him,
      ImageManager.image_to_canvas_coords]
    refine Prod.ext ?_ ?_ <;> (simp only []; field_simp)
  · intro h1 hx0 hy0
    cases hcase : m.original_image with
    | none =>
        simp [ImageManager.canvas_to_image_coords, hcase,
          ImageManager.image_to_canvas_coords, h1, hx0, hy0]
    | some img =>
        simp only [ImageManager.canvas_to_image_coords, hcase,
          ImageManager.image_to_canvas_coords, h1, hx0, hy0]
        refine Prod.ext ?_ ?_ <;> (simp only []; ring)
  · intro hnone hnot
    by_cases h1 : m.scale_factor = 1
    · refine ⟨0, 0, ?_⟩
      simp only [ImageManager.canvas_to_image_coords, hnone,
        ImageManager.image_to_canvas_coords, h1]
      intro hcontra
      rw [Prod.mk.injEq] at hcontra
      exact hnot ⟨h1, by linarith [hcontra.1], by linarith [hcontra.2]⟩
    · have hne : (1 : ℚ) - m.scale_factor ≠ 0 := by
        intro h0; exact h1 (by linarith)
      refine ⟨(m.image_x + 1) / (1 - m.scale_factor), 0, ?_⟩
      simp only [ImageManager.canvas_to_image_coords, hnone,
        ImageManager.image_to_canvas_coords]
      intro hcontra
      rw [Prod.mk.injEq] at hcontra
      have := hcontra.1
      field_simp at this
      exact h1 (by linarith)

/-- Witness for C10: the round-trip at a concrete state with a loaded
image, scale 2 and origin (10, 20), evaluated at the point (100, 50). -/
theorem coord_roundtrip_conditional_witness :
    ImageManager.image_to_canvas_coords
      { original_image := some ⟨1000, 500⟩, scale_factor := 2,
        image_x := 10, image_y := 20 }
      ((ImageManager.canvas_to_image_coords
        { original_image := some ⟨1000, 500⟩, scale_factor := 2,
          image_x := 10, image_y := 20 } 100 50).1)
      ((ImageManager.canvas_to_image_coords
        { original_image := some ⟨1000, 500⟩, scale_factor := 2,
          image_x := 10, image_y := 20 } 100 50).2) = (100, 50) :=
  (coord_roundtrip_conditional
    { original_image := some ⟨1000, 500⟩, scale_factor := 2,
      image_x := 10, image_y := 20 } 100 50).2.2.1 ⟨1000, 500⟩ rfl (by norm_num)

/-- `format6` at 1/5. -/
theorem format6_onefifth : format6 (1/5) = "0.200000" := by
  have h : ratRound ((1/5 : ℚ) * 1000000) = 200000 := by norm_num [ratRound]
  unfold format6
  rw [h]
  decide

/-- `format6` at 3/10. -/
theorem format6_threetenths : format6 (3/10) = "0.300000" := by
  have h : ratRound ((3/10 : ℚ) * 1000000) = 300000 := by norm_num [ratRound]
  unfold format6
  rw [h]
  decide

/-- Python prints the float 0.0 as `"0.0"`. -/
theorem pyNumStr_pfloat_zero : pyNumStr (PyNum.pfloat 0) = "0.0" := by
  simp only [pyNumStr, pyFloatStr]
  rw [if_pos (by norm_num : (0 : ℚ).den = 1), Rat.num_ofNat]
  decide

/-- A label file whose middle line has five tokens, one of which makes
`float()` raise, followed by a perfectly well-formed line. -/
def mixedLabelFile : List (List Tok) :=
  [[Tok.num 0, Tok.num (1/5), Tok.num (3/10), Tok.num (1/5), Tok.num (1/5)],
   [Tok.bad, Tok.num 1, Tok.num 1, Tok.num 1, Tok.num 1],
   [Tok.num 1, Tok.num (1/2), Tok.num (1/2), Tok.num (1/10), Tok.num (1/10)]]

/-- C5 counterexample: on `mixedLabelFile`, the well-formed third line
is *not* loaded: the exception on the five-token non-numeric second line
aborts the whole loop (the `except` catches it outside the `for`), so
"all remaining lines are still loaded" fails. -/
theorem load_labels_numeric_line_aborts_file :
    (LabelManager.load_labels ⟨"labels", []⟩ ("img.png") (some mixedLabelFile)).1.boxes =
      [⟨PyNum.pfloat 0, 1/5, 3/10, 1/5, 1/5⟩] ∧
    (LabelManager.load_labels ⟨"labels", []⟩ ("img.png") (some mixedLabelFile)).2 = false ∧
    parseLine5 [Tok.num 1, Tok.num (1/2), Tok.num (1/2), Tok.num (1/10), Tok.num (1/10)] =
      some ⟨PyNum.pfloat 1, 1/2, 1/2, 1/10, 1/10⟩ ∧
    ⟨PyNum.pfloat 1, 1/2, 1/2, 1/10, 1/10⟩ ∉
      (LabelManager.load_labels ⟨"labels", []⟩ ("img.png") (some mixedLabelFile)).1.boxes := by
  refine ⟨rfl, rfl, rfl, ?_⟩
  intro hmem
  have hmem' : (⟨PyNum.pfloat 1, 1/2, 1/2, 1/10, 1/10⟩ : Box) ∈
      [(⟨PyNum.pfloat 0, 1/5, 3/10, 1/5, 1/5⟩ : Box)] := hmem
  rw [List.mem_singleton] at hmem'
  have hx := congrArg Box.x_center hmem'
  norm_num at hx

/-- C5 amended: a missing file yields an empty list and `False`; with a
present file the result is exactly the line loop's output; a line with
other than five tokens is skipped and the rest still processed; a parsed
five-token line is appended; but a five-token line on which `float()`
raises stops the loop — earlier boxes are kept and later lines are never
read. -/
theorem load_labels_line_tolerance
    (m : LabelManager) (path : String) (parts : List Tok)
    (rest : List (List Tok)) (acc : List Box) (b : Box) :
    ((m.load_labels path none).1.boxes = [] ∧ (m.load_labels path none).2 = false) ∧
    (path ≠ "" → ∀ lines, (m.load_labels path (some lines)).1.boxes = (loadLines lines []).1) ∧
    (parts.length ≠ 5 → loadLines (parts :: rest) acc = loadLines rest acc) ∧
    (parts.length = 5 → parseLine5 parts = some b →
      loadLines (parts :: rest) acc = loadLines rest (acc ++ [b])) ∧
    (parts.length = 5 → parseLine5 parts = none →
      loadLines (parts :: rest) acc = (acc, false)) := by
  refine ⟨?_, ?_, ?_, ?_, ?_⟩
  · unfold LabelManager.load_labels
    by_cases hp : path = ""
    · rw [if_pos hp]
      exact ⟨rfl, rfl⟩
    · rw [if_neg hp]
      exact ⟨rfl, rfl⟩
  · intro hp lines
    unfold LabelManager.load_labels
    rw [if_neg hp]
  · intro h5
    simp only [loadLines]
    rw [if_neg h5]
  · intro h5 hparse
    simp only [loadLines]
    rw [if_pos h5, hparse]
  · intro h5 hparse
    simp only [loadLines]
    rw [if_pos h5, hparse]

/-- Witness for C5 (amended): a one-token line is skipped. -/
theorem load_labels_line_tolerance_witness :
    loadLines ([Tok.num 0] :: []) [] = loadLines [] [] :=
  (load_labels_line_tolerance ⟨"labels", []⟩ ("img.png") [Tok.num 0] [] []
    ⟨PyNum.pint 0, 0, 0, 0, 0⟩).2.2.1 (by decide)

/-- Running the line loop on `pre ++ l :: post` where every line of
`pre` parses or is skipped and `l` is a five-token line that raises:
exactly the boxes accumulated over `pre` survive, and the failure flag
is reported. -/
theorem loadLines_append_abort (pre : List (List Tok)) (post : List (List Tok))
    (l : List Tok) (acc : List Box)
    (hok : ∀ parts ∈ pre, parts.length = 5 → parseLine5 parts ≠ none)
    (hl5 : l.length = 5) (hbad : parseLine5 l = none) :
    loadLines (pre ++ l :: post) acc = ((loadLines pre acc).1, false) := by
  induction pre generalizing acc with
  | nil =>
      simp only [List.nil_append, loadLines]
      rw [if_pos hl5, hbad]
  | cons p ps ih =>
      simp only [List.cons_append, loadLines]
      split
      · rename_i hp
        rcases hps : parseLine5 p with _ | b
        · exact absurd hps (hok p (by simp) hp)
        · simp only []
          exact ih (acc ++ [b]) (fun parts hmem h5 => hok parts (by simp [hmem]) h5)
      · exact ih acc (fun parts hmem h5 => hok parts (by simp [hmem]) h5)

/-- C9: `load_labels` clears unconditionally — its resulting box list is
independent of the previous one (any two managers end with the same
boxes on the same inputs); an empty path or missing file leaves the list
empty; and when parsing raises mid-file, the store holds exactly the
boxes of the lines before the failing one (the previous list is not
restored). -/
theorem load_labels_clears_and_keeps_prefix :
    (∀ (m₁ m₂ : LabelManager) (path : String) (f : Option (List (List Tok))),
      (m₁.load_labels path f).1.boxes = (m₂.load_labels path f).1.boxes) ∧
    (∀ (m : LabelManager) (path : String) (f : Option (List (List Tok))),
      path = "" ∨ f = none → (m.load_labels path f).1.boxes = []) ∧
    (∀ (m : LabelManager) (path : String) (pre post : List (List Tok)) (l : List Tok),
      path ≠ "" →
      (∀ parts ∈ pre, parts.length = 5 → parseLine5 parts ≠ none) →
      l.length = 5 → parseLine5 l = none →
      (m.load_labels path (some (pre ++ l :: post))).1.boxes = (loadLines pre []).1 ∧
      (m.load_labels path (some (pre ++ l :: post))).2 = false) := by
  refine ⟨?_, ?_, ?_⟩
  · intro m₁ m₂ path f
    unfold LabelManager.load_labels
    by_cases hp : path = ""
    · rw [if_pos hp, if_pos hp]
      rfl
    · rw [if_neg hp, if_neg hp]
      cases f with
      | none => rfl
      | some lines => rfl
  · intro m path f h
    unfold LabelManager.load_labels
    rcases h with hp | hf
    · rw [if_pos hp]
      rfl
    · by_cases hp : path = ""
      · rw [if_pos hp]
        rfl
      · rw [if_neg hp, hf]
        rfl
  · intro m path pre post l hp hok hl5 hbad
    unfold LabelManager.load_labels
    rw [if_neg hp]
    simp only []
    rw [loadLines_append_abort pre post l [] hok hl5 hbad]
    exact ⟨rfl, rfl⟩

/-- Witness for C9: two managers with different starting boxes load the
same (empty) list from a missing file. -/
theorem load_labels_clears_and_keeps_prefix_witness :
    (LabelManager.load_labels ⟨"labels", [⟨PyNum.pint 0, 0, 0, 0, 0⟩]⟩
        ("img.png") none).1.boxes =
      (LabelManager.load_labels ⟨"labels", []⟩ ("img.png") none).1.boxes :=
  load_labels_clears_and_keeps_prefix.1 ⟨"labels", [⟨PyNum.pint 0, 0, 0, 0, 0⟩]⟩
    ⟨"labels", []⟩ ("img.png") none

/-- The manager state after loading the single well-formed label line
`0 0.2 0.3 0.2 0.2` — note `map(float, ...)` makes the stored class id a
float. -/
def loadedFromFileLM : LabelManager × Bool :=
  LabelManager.load_labels ⟨"labels", []⟩ ("img.png")
    (some [[Tok.num 0, Tok.num (1/5), Tok.num (3/10), Tok.num (1/5), Tok.num (1/5)]])

/-- The line written for the box loaded above. -/
theorem boxLine_loaded_box :
    boxLine ⟨PyNum.pfloat 0, 1/5, 3/10, 1/5, 1/5⟩ =
      "0.0 0.200000 0.300000 0.200000 0.200000\n" := by
  simp only [boxLine]
  rw [pyNumStr_pfloat_zero, format6_onefifth, format6_threetenths]
  decide

/-- C7 counterexample: a box list reachable by loading a label file
re-saves with the class id written as `"0.0"`, not as the integer `"0"`
the spec's format prescribes (`str()` of the float class id). -/
theorem save_labels_float_class_id_counterexample :
    loadedFromFileLM.1.boxes = [⟨PyNum.pfloat 0, 1/5, 3/10, 1/5, 1/5⟩] ∧
    (loadedFromFileLM.1.save_labels ("img.png") none).1 =
      some ("0.0 0.200000 0.300000 0.200000 0.200000\n") ∧
    specLabelLine 0 (1/5) (3/10) (1/5) (1/5) =
      "0 0.200000 0.300000 0.200000 0.200000\n" ∧
    ("0.0 0.200000 0.300000 0.200000 0.200000\n" : String) ≠
      "0 0.200000 0.300000 0.200000 0.200000\n" := by
  refine ⟨rfl, ?_, ?_, by decide⟩
  · have hser : serializeBoxes loadedFromFileLM.1.boxes =
        "0.0 0.200000 0.300000 0.200000 0.200000\n" := by
      have hb : loadedFromFileLM.1.boxes =
          [⟨PyNum.pfloat 0, 1/5, 3/10, 1/5, 1/5⟩] := rfl
      rw [hb]
      simp only [serializeBoxes, List.map_cons, List.map_nil, boxLine_loaded_box]
      decide
    unfold LabelManager.save_labels
    rw [if_neg (by decide : ¬ (("img.png" : String) = "")), hser]
  · simp only [specLabelLine]
    rw [format6_onefifth, format6_threetenths]
    decide

/-- C7 amended: saving always reports success on a nonempty path and
replaces the file with exactly the serialization of the current list —
one newline-terminated line per box in order, coordinates at six decimal
places — independent of the file's previous content (full overwrite);
for a box whose stored class id is an `int` (every box created
in-session), the line matches the spec's integer-class-id format, while
boxes loaded from a file carry float class ids (see the
counterexample). -/
theorem save_labels_overwrite_format (m : LabelManager) (path : String)
    (old : Option String) (hpath : path ≠ "") :
    (m.save_labels path old).1 = some (serializeBoxes m.boxes) ∧
    (m.save_labels path old).2 = true ∧
    serializeBoxes m.boxes = String.join (m.boxes.map boxLine) ∧
    (∀ b ∈ m.boxes, ∀ k : ℤ, b.class_id = PyNum.pint k →
      boxLine b = specLabelLine k b.x_center b.y_center b.width b.height) := by
  refine ⟨?_, ?_, rfl, ?_⟩
  · unfold LabelManager.save_labels
    rw [if_neg hpath]
  · unfold LabelManager.save_labels
    rw [if_neg hpath]
  · intro b _ k hk
    simp only [boxLine, specLabelLine, hk, pyNumStr]

/-- Witness for C7 (amended): saving one fresh box with the default
`int` class id overwrites the junk previously in the file. -/
theorem save_labels_overwrite_format_witness :
    (LabelManager.save_labels ⟨"labels", [⟨PyNum.pint 0, 1/5, 3/10, 1/5, 1/5⟩]⟩
        ("img.png") (some ("junk"))).1 =
      some (serializeBoxes [⟨PyNum.pint 0, 1/5, 3/10, 1/5, 1/5⟩]) :=
  (save_labels_overwrite_format ⟨"labels", [⟨PyNum.pint 0, 1/5, 3/10, 1/5, 1/5⟩]⟩
    ("img.png") (some ("junk")) (by decide)).1

/-!
### The monolithic app's box-mutation handlers (C3)

The three mutating operations of `src/main.py` on the active image's
annotation state: finishing a box draw (`end_pan_or_draw`, lines
592-650), `undo_box` (lines 703-713) and `clear_labels` (lines 656-674).
An active image is assumed (`image_path` nonempty — every handler
requires the labeling view).  The canvas rectangle ids are carried to
mirror `undo_box`'s `if self.boxes and self.box_rects` guard.
-/

structure LabelerBoxes where
  boxes : List Box
  box_rects : List ℕ
  labelFile : Option String
deriving DecidableEq, Repr

/-- The drawing branch of `end_pan_or_draw`: if the dragged rectangle
exceeds 5 canvas pixels each way, the corners are converted to image
coordinates, normalized, appended with `int` class id 0, and
`save_labels()` rewrites the file before the handler returns; otherwise
nothing is stored. -/
def applyEndDraw (s : LabelerBoxes) (x1 y1 x2 y2 : ℚ) (imgW imgH : ℕ)
    (scale ix iy : ℚ) (rect_id : ℕ) : LabelerBoxes :=
  if 5 < |x2 - x1| ∧ 5 < |y2 - y1| then
    let x1_orig := (x1 - ix) / scale
    let y1_orig := (y1 - iy) / scale
    let x2_orig := (x2 - ix) / scale
    let y2_orig := (y2 - iy) / scale
    let x_center := (x1_orig + x2_orig) / 2 / (imgW : ℚ)
    let y_center := (y1_orig + y2_orig) / 2 / (imgH : ℚ)
    let width := |x2_orig - x1_orig| / (imgW : ℚ)
    let height := |y2_orig - y1_orig| / (imgH : ℚ)
    let boxes' := s.boxes ++ [⟨PyNum.pint 0, x_center, y_center, width, height⟩]
    { boxes := boxes', box_rects := s.box_rects ++ [rect_id],
      labelFile := some (serializeBoxes boxes') }
  else s

/-- `undo_box`: pops the last box and rectangle and rewrites the file,
only when both lists are nonempty. -/
def applyUndo (s : LabelerBoxes) : LabelerBoxes :=
  if s.boxes ≠ [] ∧ s.box_rects ≠ [] then
    let boxes' := s.boxes.dropLast
    { boxes := boxes', box_rects := s.box_rects.dropLast,
      labelFile := some (serializeBoxes boxes') }
  else s

/-- `clear_labels`: empties the in-memory state and deletes the label
file (deleting a missing file is not an error). -/
def applyClear (s : LabelerBoxes) : LabelerBoxes :=
  { boxes := [], box_rects := [], labelFile := none }

/-- One user-level mutation of the annotation state. -/
inductive LabelerEvent where
  | endDraw (x1 y1 x2 y2 : ℚ) (imgW imgH : ℕ) (scale ix iy : ℚ) (rect_id : ℕ)
  | undo
  | clear
deriving DecidableEq, Repr

/-- Dispatch one event to its handler. -/
def stepEvent : LabelerEvent → LabelerBoxes → LabelerBoxes
  | LabelerEvent.endDraw x1 y1 x2 y2 imgW imgH scale ix iy rect_id, s =>
      applyEndDraw s x1 y1 x2 y2 imgW imgH scale ix iy rect_id
  | LabelerEvent.undo, s => applyUndo s
  | LabelerEvent.clear, s => applyClear s

/-- The file on disk matches the in-memory list: it holds exactly the
serialization of the current boxes, or it is absent and the list is
empty. -/
def labelFileConsistent (s : LabelerBoxes) : Prop :=
  s.labelFile = some (serializeBoxes s.boxes) ∨
    (s.labelFile = none ∧ s.boxes = [])

/-- C3: every add / undo / clear handler either leaves the entire state
untouched (the rejected cases: a too-small box, undo on an empty list)
or returns with the label file holding exactly the serialization of the
new box list (deleted for clear, matching the empty list) — persistence
is synchronous, inside the handler, with no separate save step; and
file/list consistency is preserved across every sequence of these
mutations. -/
theorem mutation_persistence (s : LabelerBoxes) (e : LabelerEvent)
    (es : List LabelerEvent) :
    (stepEvent e s = s ∨ labelFileConsistent (stepEvent e s)) ∧
    (labelFileConsistent s →
      labelFileConsistent (es.foldl (fun a ev => stepEvent ev a) s)) := by
  have hstep : ∀ (s' : LabelerBoxes) (e' : LabelerEvent),
      stepEvent e' s' = s' ∨ labelFileConsistent (stepEvent e' s') := by
    intro s' e'
    cases e' with
    | endDraw x1 y1 x2 y2 imgW imgH scale ix iy rect_id =>
        unfold stepEvent applyEndDraw
        simp only []
        by_cases hcond : 5 < |x2 - x1| ∧ 5 < |y2 - y1|
        · rw [if_pos hcond]
          exact Or.inr (Or.inl rfl)
        · rw [if_neg hcond]
          exact Or.inl rfl
    | undo =>
        unfold stepEvent applyUndo
        simp only []
        by_cases hcond : s'.boxes ≠ [] ∧ s'.box_rects ≠ []
        · rw [if_pos hcond]
          exact Or.inr (Or.inl rfl)
        · rw [if_neg hcond]
          exact Or.inl rfl
    | clear =>
        exact Or.inr (Or.inr ⟨rfl, rfl⟩)
  refine ⟨hstep s e, ?_⟩
  intro hc
  induction es generalizing s with
  | nil => exact hc
  | cons ev evs ih =>
      simp only [List.foldl_cons]
      rcases hstep s ev with heq | hcons
      · rw [heq]
        exact ih s hc
      · exact ih (stepEvent ev s) hcons

/-- Witness for C3: from an empty store with no file, clearing then
drawing a 200×100-pixel box at scale 1 leaves a consistent state. -/
theorem mutation_persistence_witness :
    labelFileConsistent (List.foldl (fun a ev => stepEvent ev a)
      ⟨[], [], none⟩
      [LabelerEvent.clear,
       LabelerEvent.endDraw 100 100 300 200 1000 500 1 0 0 7]) :=
  (mutation_persistence ⟨[], [], none⟩ LabelerEvent.clear
    [LabelerEvent.clear,
     LabelerEvent.endDraw 100 100 300 200 1000 500 1 0 0 7]).2
    (Or.inr ⟨rfl, rfl⟩)
